import Mathlib

/-!
Verification development for the defcon-33-domain-fronting repository.

The repository's core is a CDN-attribution pipeline written in Go:
* cmd/cdn-asn-ip-map/main.go — two builder variants (a remote per-ASN API
  variant and a bulk-TSV variant) that turn a CDN→ASN list into a
  CDN→IP-range table;
* cmd/resolve/main.go — a concurrent resolver that looks up each domain
  via public DNS and classifies the resulting IP against the range table.

This file shallow-embeds the functions those claims are about, translated
from the Go source, and proves or refutes each claim.
-/

namespace DomainFronting

/-! ## Character-list string utilities

The Go source works on strings via the standard library
(strings.Split, strings.Trim, strings.TrimPrefix, net.ParseIP,
bytes.Compare).  We model those operations by structural recursion on
character lists so everything evaluates in the kernel. -/

/-- Go strings.Split(s, sep) for a one-character separator, on char lists. -/
def splitOnChar (sep : Char) : List Char → List (List Char)
  | [] => [[]]
  | c :: cs =>
    if c = sep then [] :: splitOnChar sep cs
    else
      match splitOnChar sep cs with
      | [] => [[c]]
      | g :: gs => (c :: g) :: gs

/-- Go strings.Trim(s, cutset): drop leading and trailing characters
that appear in the cutset. -/
def trimChars (cutset : List Char) (cs : List Char) : List Char :=
  ((cs.dropWhile (· ∈ cutset)).reverse.dropWhile (· ∈ cutset)).reverse

/-- Go strings.TrimPrefix(asn, "AS"): drop a leading "AS" when present. -/
def trimPrefixAS : List Char → List Char
  | 'A' :: 'S' :: rest => rest
  | cs => cs

/-! ## net.ParseIP (IPv4 dotted-quad path) and bytes.Compare

net.ParseIP returns, for a dotted-quad IPv4 string, a 16-byte slice in
IPv4-in-IPv6 form whose first 12 bytes are the fixed v4-mapped prefix;
bytes.Compare of two such slices therefore agrees with lexicographic
comparison of the final 4 bytes.  We model a parsed IPv4 address as its
4-byte list.  Go (since 1.17) rejects a dotted-quad field with a
leading zero; every field must be a decimal number ≤ 255. -/

/-- Numeric value of a decimal digit list (fields are all-digit by check). -/
def digitsVal (cs : List Char) : Nat :=
  cs.foldl (fun a c => a * 10 + (c.toNat - 48)) 0

/-- Parse one dotted-quad field: nonempty, decimal digits, no leading
zero (unless the field is exactly "0"), value at most 255. -/
def parseByte (cs : List Char) : Option Nat :=
  if cs ≠ [] ∧ cs.all Char.isDigit ∧ (cs.length = 1 ∨ cs.head? ≠ some '0') then
    let v := digitsVal cs
    if v ≤ 255 then some v else none
  else none

/-- The IPv4 dotted-quad path of Go net.ParseIP, producing the 4 bytes. -/
def parseIPv4 (s : String) : Option (List Nat) :=
  match (splitOnChar '.' s.toList).map parseByte with
  | [some a, some b, some c, some d] => some [a, b, c, d]
  | _ => none

/-- bytes.Compare: lexicographic comparison of byte lists. -/
def cmpBytes : List Nat → List Nat → Ordering
  | [], [] => .eq
  | [], _ :: _ => .lt
  | _ :: _, [] => .gt
  | a :: as, b :: bs =>
    if a < b then .lt else if b < a then .gt else cmpBytes as bs

/-- 32-bit integer view of a 4-byte IPv4 address. -/
def ipToNat (bs : List Nat) : Nat :=
  bs.foldl (fun a b => a * 256 + b) 0

/-! ## cmd/resolve/main.go: range table and classifier -/

/-- IPRange from resolve/main.go: an IP range with start and end
addresses, kept as the strings read from the JSON table. -/
structure IPRange where
  Start : String
  End : String
deriving DecidableEq, Repr

/-- CDNIPMap is a Go map from CDN name to IP ranges.  Go map iteration
order is not fixed, so we embed the map as the association list in the
order a given iteration visits its entries; two lists that are
permutations of each other (with the same unique keys) denote the same
Go map value. -/
abbrev CDNIPMap := List (String × List IPRange)

/-- isIPInRange (resolve/main.go:134-144): parse all three addresses,
return false if any fails to parse, else test
bytes.Compare(ip,start) >= 0 && bytes.Compare(ip,end) <= 0. -/
def isIPInRange (ip start en : String) : Bool :=
  match parseIPv4 ip, parseIPv4 start, parseIPv4 en with
  | some ipP, some startP, some endP =>
    cmpBytes ipP startP ≠ .lt && cmpBytes ipP endP ≠ .gt
  | _, _, _ => false

/-- The inner loop of getCDNForIP over one CDN's ranges: return on the
first range containing the IP. -/
def rangesContain (ip : String) (ranges : List IPRange) : Bool :=
  ranges.any fun r => isIPInRange ip r.Start r.End

/-- getCDNForIP (resolve/main.go:146-156): scan the table in iteration
order; the first CDN with a containing range wins; otherwise
("unknown", noCDN error).  We render the Go (cdn, error) pair as
(cdn, found): found = true stands for a nil error, found = false for
the noCDN sentinel error. -/
def getCDNForIP (ip : String) : CDNIPMap → String × Bool
  | [] => ("unknown", false)
  | (cdn, ranges) :: rest =>
    if rangesContain ip ranges then (cdn, true) else getCDNForIP ip rest

/-! ## cmd/resolve/main.go: DNS lookup with retry -/

/-- The outcome of one LookupIP attempt against one DNS server: either
an error or a list of resolved addresses (modelled by their string
rendering, as processDomain only ever uses ips[0].String()). -/
inductive DNSOutcome where
  | fail : String → DNSOutcome
  | ok : List String → DNSOutcome
deriving DecidableEq, Repr

/-- The 23 public DNS servers hard-coded in resolve/main.go:46-81. -/
def publicDNSServers : List String :=
  ["8.8.8.8:53", "1.1.1.1:53", "9.9.9.9:53", "208.67.222.222:53",
   "64.6.64.6:53", "8.26.56.26:53", "84.200.69.80:53", "77.88.8.8:53",
   "80.80.80.80:53", "195.46.39.39:53", "119.29.29.29:53",
   "114.114.114.114:53", "223.5.5.5:53", "180.76.76.76:53",
   "101.226.4.6:53", "1.2.4.8:53", "168.95.1.1:53", "202.181.224.2:53",
   "101.101.101.101:53", "203.50.2.71:53", "196.213.41.10:53",
   "200.56.224.11:53", "200.85.37.254:53"]

/-- The retry loop of lookupIPWithRetry (resolve/main.go:99-130), one
attempt outcome per server in shuffled order, threading lastErr.
Returns the Go function's result — Except carries the lastErr value
(none models a nil lastErr formatted into the failure message) — and
the number of attempts the loop performed. -/
def lookupLoop : List DNSOutcome → Option String →
    Except (Option String) (List String) × Nat
  | [], lastErr => (.error lastErr, 0)
  | .fail e :: rest, _ =>
    let (r, n) := lookupLoop rest (some e)
    (r, n + 1)
  | .ok ips :: rest, lastErr =>
    if ips.isEmpty then
      let (r, n) := lookupLoop rest lastErr
      (r, n + 1)
    else (.ok ips, 1)

/-- lookupIPWithRetry (resolve/main.go:89-131): shuffle produces some
permutation of publicDNSServers; each server is then attempted at most
once via the oracle (the network's response to that server). -/
def lookupIPWithRetry (servers : List String)
    (oracle : String → DNSOutcome) :
    Except (Option String) (List String) × Nat :=
  lookupLoop (servers.map oracle) none

/-! ## cmd/resolve/main.go: processDomain and the pipeline -/

/-- CSVDump (resolve/main.go:33-37): one output row. -/
structure CSVDump where
  CDN : String
  DomainSLD : String
  IP : String
deriving DecidableEq, Repr

/-- The error kinds processDomain (resolve/main.go:176-203) can return:
the DNS failure wrapper, the "no IP addresses found" branch, and the
noCDN sentinel propagated from getCDNForIP. -/
inductive PErr where
  | dnsFail : Option String → PErr
  | noIPs : PErr
  | noCDN : PErr
deriving DecidableEq, Repr

/-- processDomain (resolve/main.go:176-203): resolve with retry, fail
on lookup error; fail with noIPs when the returned list is empty; take
the first address; classify it; propagate noCDN; otherwise build the
output row. -/
def processDomain (servers : List String)
    (oracle : String → String → DNSOutcome)
    (table : CDNIPMap) (domain : String) : Except PErr CSVDump :=
  match (lookupIPWithRetry servers (oracle domain)).1 with
  | .error lastErr => .error (.dnsFail lastErr)
  | .ok ips =>
    if ips.length = 0 then .error .noIPs
    else
      let ip := ips.headD ""
      match getCDNForIP ip table with
      | (cdn, true) => .ok ⟨cdn, domain, ip⟩
      | (_, false) => .error .noCDN

/-- Result (resolve/main.go:290-295): what a worker sends back for one
job.  Wall-clock duration is not modelled; it is carried as an opaque
number. -/
structure RResult where
  resources : CSVDump
  err : Option PErr
  domain : String
  duration : Nat
deriving DecidableEq, Repr

/-- The worker body (resolve/main.go:306-320): each job taken from the
channel produces exactly one Result pushed to the results channel. -/
def workerProcess (servers : List String)
    (oracle : String → String → DNSOutcome)
    (table : CDNIPMap) (dur : Nat) (domain : String) : RResult :=
  match processDomain servers oracle table domain with
  | .ok resources => ⟨resources, none, domain, dur⟩
  | .error e => ⟨⟨"", "", ""⟩, some e, domain, dur⟩

/-- The producer goroutine (resolve/main.go:324-339): split each line
on ","; lines with fewer than 2 parts are warned about and skipped;
otherwise parts[1] becomes the job's domain. -/
def parseJobs (lines : List String) : List String :=
  lines.filterMap fun line =>
    match (splitOnChar ',' line.toList).map List.asString with
    | _ :: domain :: _ => some domain
    | _ => none

/-- Log lines the aggregation loop emits per result
(resolve/main.go:349-354): a "no cdn" warning or a processing error. -/
inductive LogEntry where
  | warnNoCDN : String → LogEntry
  | errorProcessing : String → LogEntry
deriving DecidableEq, Repr

/-- The aggregator's mutable state (resolve/main.go:266-267 and the
output CSV): processed counter, written rows, per-domain durations,
log stream.  This is the spec's ProgressState plus the output sink. -/
structure AggState where
  processedCount : Nat
  rows : List (List String)
  processingTimes : List Nat
  logs : List LogEntry
deriving DecidableEq, Repr

def initAgg : AggState := ⟨0, [], [], []⟩

/-- One iteration of the result aggregation loop
(resolve/main.go:348-394).  On an error result: log (a warning for the
noCDN sentinel, an error otherwise), increment processedCount, and
continue — no row is written.  On a success: write and flush the row
and append the duration; the loop does NOT increment processedCount on
this path (the increment at line 356 sits inside the error branch,
before its continue).  The periodic progress log (every 10) only
formats counters and is omitted. -/
def aggregateStep (s : AggState) (r : RResult) : AggState :=
  match r.err with
  | some e =>
    { s with
      logs := s.logs ++ [if e = .noCDN then .warnNoCDN r.domain
                         else .errorProcessing r.domain],
      processedCount := s.processedCount + 1 }
  | none =>
    { s with
      rows := s.rows ++ [[r.resources.CDN, r.resources.DomainSLD,
                          r.resources.IP]],
      processingTimes := s.processingTimes ++ [r.duration] }

/-- The aggregation loop: drain the results in arrival order. -/
def aggregate (s : AggState) (results : List RResult) : AggState :=
  results.foldl aggregateStep s

/-! ## cmd/cdn-asn-ip-map/main.go: the range-table builders

The file holds two builder variants: a remote per-ASN API variant
(ipinfo.io) and a bulk-TSV variant (iptoasn.com).  Both share the CSV
row parsing. -/

/-- ASNEntry (TSV variant): one row of ip2asn-v4.tsv. -/
structure ASNEntry where
  RangeStart : String
  RangeEnd : String
  ASNumber : String
  CountryCode : String
  ASDescription : String
deriving DecidableEq, Repr

/-- getIPRangesForASN, TSV variant (cdn-asn-ip-map lines 330-351):
drop an "AS" lead from the ASN, collect every TSV entry whose
ASNumber matches, and fail when nothing matched. -/
def getIPRangesForASNTSV (entries : List ASNEntry) (asn : String) :
    Except String (List IPRange) :=
  let asnNumber := (trimPrefixAS asn.toList).asString
  let ipRanges := (entries.filter fun e => e.ASNumber = asnNumber).map
    fun e => IPRange.mk e.RangeStart e.RangeEnd
  if ipRanges = [] then .error "no IP ranges found" else .ok ipRanges

/-- The per-row CSV parsing shared by both builder mains
(cdn-asn-ip-map lines 139-154 and 417-432): the CDN name is column 0
with double quotes trimmed; the remaining columns are split on commas,
each ASN trimmed of spaces and double quotes, empties dropped. -/
def parseRecord (record : List String) : String × List String :=
  ((trimChars ['"'] (record.headD "").toList).asString,
   record.tail.flatMap fun field =>
     (splitOnChar ',' field.toList).filterMap fun a =>
       let asn := trimChars [' ', '"'] a
       if asn = [] then none else some asn.asString)

/-- The Go map insertion cdnIPMap[cdnName] = append(cdnIPMap[cdnName],
ipRanges...), on the association-list view: extend an existing entry
in place, or add a new key at the end. -/
def mapAppend (m : List (String × List IPRange)) (k : String)
    (v : List IPRange) : List (String × List IPRange) :=
  match m with
  | [] => [(k, v)]
  | (k', v') :: rest =>
    if k' = k then (k', v' ++ v) :: rest
    else (k', v') :: mapAppend rest k v

/-- One CSV row of the TSV-variant builder loop (lines 434-447): for
each ASN of the row, look its ranges up; on error skip (logged), else
append to the CDN's entry. -/
def buildRow (entries : List ASNEntry)
    (m : List (String × List IPRange)) (record : List String) :
    List (String × List IPRange) :=
  let (cdnName, asns) := parseRecord record
  asns.foldl
    (fun m asn =>
      match getIPRangesForASNTSV entries asn with
      | .error _ => m
      | .ok ipRanges => mapAppend m cdnName ipRanges)
    m

/-- The TSV-variant builder's row loop (lines 407-448), from an empty
map: this is RangeTableBuilder.build against a preloaded bulk range
source. -/
def buildCDNIPMap (entries : List ASNEntry) (records : List (List String)) :
    List (String × List IPRange) :=
  records.foldl (buildRow entries) []

/-- The netblock conversion inside the API-variant getIPRangesForASN
(cdn-asn-ip-map lines 74-87), for one prefix: split it on "/"; when it
has exactly two parts, emit a range whose Start AND End are both the
address part — the naive CIDR handling. -/
def netblockToRange (nb : String) : Option IPRange :=
  match splitOnChar '/' nb.toList with
  | [addr, _len] => some (IPRange.mk addr.asString addr.asString)
  | _ => none

/-- The loop of the API-variant getIPRangesForASN over all returned
prefixes. -/
def netblocksToRanges (netblocks : List String) : List IPRange :=
  netblocks.filterMap netblockToRange

/-- Externally observable actions of a builder run, used to settle the
overwrite claim: network accesses and the output write. -/
inductive BEvent where
  | netDownloadTSV : BEvent
  | netFetchASN : String → BEvent
  | writeOutput : BEvent
deriving DecidableEq, Repr

/-- The fatal message of the TSV builder's output existence check
(cdn-asn-ip-map lines 367-370). -/
def overwriteFatalMsg : String :=
  "Output file already exists. Please specify a different output file to prevent overwriting, or delete existing file"

/-- The TSV-variant main (lines 353-462), with valid flags: first the
output existence check — log.Fatalf stops the run with no event having
occurred.  Otherwise: checkAndDownloadTSV (a network download only
when the TSV is not cached on disk), the local row loop (no network),
and the output write. -/
def tsvBuilderMain (outputExists tsvCached : Bool)
    (entries : List ASNEntry) (records : List (List String)) :
    List BEvent × Option String :=
  if outputExists then ([], some overwriteFatalMsg)
  else
    ((if tsvCached then [] else [BEvent.netDownloadTSV]) ++
      [BEvent.writeOutput], none)

/-- The API-variant main (lines 90-184), with valid flags: it performs
NO output existence check — it fetches every ASN of every row from the
remote API and then writes the output file unconditionally.  The
outputExists argument is deliberately unused: the run does not depend
on it. -/
def apiBuilderMain (outputExists : Bool) (records : List (List String)) :
    List BEvent × Option String :=
  (records.flatMap (fun record => ((parseRecord record).2).map .netFetchASN)
    ++ [BEvent.writeOutput], none)

/-! ## Concrete instances used by witnesses and counterexamples -/

/-- The range of spec scenario A: 10.0.0.0 – 10.0.0.255. -/
def exRange : IPRange := ⟨"10.0.0.0", "10.0.0.255"⟩

/-- Scenario A's single-CDN table. -/
def exTable : CDNIPMap := [("ExampleCDN", [exRange])]

/-- A table in which two distinct CDNs carry the same range: the same
Go map value can be iterated with either entry first. -/
def overlapTableAB : CDNIPMap := [("cdnA", [exRange]), ("cdnB", [exRange])]

/-- The other iteration order of the same two-entry map. -/
def overlapTableBA : CDNIPMap := [("cdnB", [exRange]), ("cdnA", [exRange])]

/-- Two disjoint-range entries, for the order-independence witness. -/
def exRange2 : IPRange := ⟨"20.0.0.0", "20.0.0.255"⟩

def disjointTableAB : CDNIPMap := [("cdnA", [exRange]), ("cdnB", [exRange2])]

def disjointTableBA : CDNIPMap := [("cdnB", [exRange2]), ("cdnA", [exRange])]

/-- A DNS oracle for witnesses: every server resolves every domain to
10.0.0.42. -/
def oracleAlways42 : String → String → DNSOutcome :=
  fun _ _ => .ok ["10.0.0.42"]

/-- A DNS oracle whose answers land outside every range of exTable
(spec scenario B). -/
def oracleUnknown : String → String → DNSOutcome :=
  fun _ _ => .ok ["10.0.1.1"]

/-- A successful worker result, as produced for a domain resolving to
10.0.0.42 against exTable. -/
def succResult : RResult :=
  workerProcess publicDNSServers oracleAlways42 exTable 7 "example.com"

/-- A bulk-table entry for ASN 13335 only. -/
def exEntry : ASNEntry := ⟨"1.0.0.0", "1.0.0.255", "13335", "US", "CF"⟩

/-- A per-server oracle for the retry witness: only Google DNS answers,
with a nonempty address list. -/
def oracleFirstOnly : String → DNSOutcome :=
  fun server =>
    if server = "8.8.8.8:53" then .ok ["1.2.3.4"] else .fail "timeout"

/-- A one-row, well-formed domain list (rank,domain). -/
def inputLinesC2 : List String := ["1,example.com"]

/-! ## Specification-side helper functions (decidable views of the
loops above, used to state the claims) -/

/-- An attempt lets the retry loop stop iff it returned with no error
and at least one address (resolve/main.go:117-127). -/
def attemptQualifies : DNSOutcome → Bool
  | .fail _ => false
  | .ok ips => !ips.isEmpty

/-- The lastErr value after folding a run of attempts over an initial
value: failed attempts overwrite it, empty successes leave it. -/
def lastErrFrom (le : Option String) (attempts : List DNSOutcome) :
    Option String :=
  attempts.foldl
    (fun acc o => match o with | .fail e => some e | .ok _ => acc) le

/-- The last observed error of a whole attempt sequence. -/
def lastErrOf (attempts : List DNSOutcome) : Option String :=
  lastErrFrom none attempts

/-- Whether the TSV range lookup succeeds for an ASN. -/
def fetchOk (entries : List ASNEntry) (asn : String) : Bool :=
  match getIPRangesForASNTSV entries asn with
  | .ok _ => true
  | .error _ => false

/-- The key list of a built table, in insertion order. -/
def keysOf (m : List (String × List IPRange)) : List String :=
  m.map Prod.fst

/-! ## Helper lemmas -/

theorem parseByte_le {cs : List Char} {v : Nat}
    (h : parseByte cs = some v) : v ≤ 255 := by
  unfold parseByte at h
  split at h
  · dsimp only at h
    split at h
    · injection h with h
      omega
    · simp at h
  · simp at h

theorem parseIPv4_shape {s : String} {bs : List Nat}
    (h : parseIPv4 s = some bs) :
    bs.length = 4 ∧ ∀ x ∈ bs, x ≤ 255 := by
  unfold parseIPv4 at h
  split at h
  · next a b c d heq =>
    injection h with h
    subst h
    refine ⟨rfl, ?_⟩
    intro x hx
    have hmem : some x ∈ (splitOnChar '.' s.toList).map parseByte := by
      rw [heq]
      simp only [List.mem_cons, List.mem_singleton] at hx ⊢
      rcases hx with rfl | rfl | rfl | rfl | h
      · exact Or.inl rfl
      · exact Or.inr (Or.inl rfl)
      · exact Or.inr (Or.inr (Or.inl rfl))
      · exact Or.inr (Or.inr (Or.inr (Or.inl rfl)))
      · cases h
    rcases List.mem_map.mp hmem with ⟨cs, _, hcs⟩
    exact parseByte_le hcs
  · cases h

theorem cmpBytes_lt_iff {a b c d e f g h : Nat}
    (hb : b ≤ 255) (hc : c ≤ 255) (hd : d ≤ 255)
    (hf : f ≤ 255) (hg : g ≤ 255) (hh : h ≤ 255) :
    cmpBytes [a, b, c, d] [e, f, g, h] = .lt ↔
      ipToNat [a, b, c, d] < ipToNat [e, f, g, h] := by
  simp only [cmpBytes, ipToNat, List.foldl]
  split_ifs <;> simp_all <;> omega

theorem cmpBytes_gt_iff {a b c d e f g h : Nat}
    (hb : b ≤ 255) (hc : c ≤ 255) (hd : d ≤ 255)
    (hf : f ≤ 255) (hg : g ≤ 255) (hh : h ≤ 255) :
    cmpBytes [a, b, c, d] [e, f, g, h] = .gt ↔
      ipToNat [e, f, g, h] < ipToNat [a, b, c, d] := by
  simp only [cmpBytes, ipToNat, List.foldl]
  split_ifs <;> simp_all <;> omega

/-- For parseable addresses, the byte-wise containment test agrees with
32-bit-integer inclusive containment. -/
theorem isIPInRange_iff {ip st en : String} {ib sb eb : List Nat}
    (hip : parseIPv4 ip = some ib) (hst : parseIPv4 st = some sb)
    (hen : parseIPv4 en = some eb) :
    isIPInRange ip st en = true ↔
      ipToNat sb ≤ ipToNat ib ∧ ipToNat ib ≤ ipToNat eb := by
  obtain ⟨hlen, hbound⟩ := parseIPv4_shape hip
  obtain ⟨hlens, hbounds⟩ := parseIPv4_shape hst
  obtain ⟨hlene, hbounde⟩ := parseIPv4_shape hen
  obtain ⟨i0, i1, i2, i3, rfl⟩ :
      ∃ x0 x1 x2 x3, ib = [x0, x1, x2, x3] := by
    match ib, hlen with
    | [x0, x1, x2, x3], _ => exact ⟨x0, x1, x2, x3, rfl⟩
  obtain ⟨s0, s1, s2, s3, rfl⟩ :
      ∃ x0 x1 x2 x3, sb = [x0, x1, x2, x3] := by
    match sb, hlens with
    | [x0, x1, x2, x3], _ => exact ⟨x0, x1, x2, x3, rfl⟩
  obtain ⟨e0, e1, e2, e3, rfl⟩ :
      ∃ x0 x1 x2 x3, eb = [x0, x1, x2, x3] := by
    match eb, hlene with
    | [x0, x1, x2, x3], _ => exact ⟨x0, x1, x2, x3, rfl⟩
  have hi1 : i1 ≤ 255 := hbound i1 (by simp)
  have hi2 : i2 ≤ 255 := hbound i2 (by simp)
  have hi3 : i3 ≤ 255 := hbound i3 (by simp)
  have hs1 : s1 ≤ 255 := hbounds s1 (by simp)
  have hs2 : s2 ≤ 255 := hbounds s2 (by simp)
  have hs3 : s3 ≤ 255 := hbounds s3 (by simp)
  have he1 : e1 ≤ 255 := hbounde e1 (by simp)
  have he2 : e2 ≤ 255 := hbounde e2 (by simp)
  have he3 : e3 ≤ 255 := hbounde e3 (by simp)
  have hlt := cmpBytes_lt_iff (a := i0) (e := s0) hi1 hi2 hi3 hs1 hs2 hs3
  have hgt := cmpBytes_gt_iff (a := i0) (e := e0) hi1 hi2 hi3 he1 he2 he3
  unfold isIPInRange
  rw [hip, hst, hen]
  rw [Bool.and_eq_true]
  constructor
  · rintro ⟨h1, h2⟩
    simp only [ne_eq, decide_eq_true_eq] at h1 h2
    have hn1 : ¬ ipToNat [i0, i1, i2, i3] < ipToNat [s0, s1, s2, s3] :=
      fun hc => h1 (hlt.mpr hc)
    have hn2 : ¬ ipToNat [e0, e1, e2, e3] < ipToNat [i0, i1, i2, i3] :=
      fun hc => h2 (hgt.mpr hc)
    omega
  · rintro ⟨h1, h2⟩
    refine ⟨?_, ?_⟩ <;> simp only [ne_eq, decide_eq_true_eq]
    · intro hc
      have := hlt.mp hc
      omega
    · intro hc
      have := hgt.mp hc
      omega

theorem getCDNForIP_cons (ip cdn : String) (ranges : List IPRange)
    (t : CDNIPMap) :
    getCDNForIP ip ((cdn, ranges) :: t)
      = if rangesContain ip ranges then (cdn, true)
        else getCDNForIP ip t := rfl

/-- If some entry of the table contains the IP, the scan reports a
match. -/
theorem getCDNForIP_found_of_contains {ip : String} :
    ∀ {t : CDNIPMap}, (∃ p ∈ t, rangesContain ip p.2 = true) →
      (getCDNForIP ip t).2 = true := by
  intro t
  induction t with
  | nil => rintro ⟨p, hp, _⟩; cases hp
  | cons hd tl ih =>
    rintro ⟨p, hp, hpc⟩
    obtain ⟨cdn, ranges⟩ := hd
    rw [getCDNForIP_cons]
    split_ifs with hc
    · rfl
    · apply ih
      rcases List.mem_cons.mp hp with rfl | hmem
      · exact absurd hpc hc
      · exact ⟨p, hmem, hpc⟩

/-- When the only entries containing the IP carry one CDN name, the
scan returns that name whatever the iteration order put first. -/
theorem getCDNForIP_eq_of_unique {ip c : String} {ranges : List IPRange} :
    ∀ {t : CDNIPMap}, (c, ranges) ∈ t → rangesContain ip ranges = true →
      (∀ p ∈ t, rangesContain ip p.2 = true → p.1 = c) →
      getCDNForIP ip t = (c, true) := by
  intro t
  induction t with
  | nil => intro hmem; cases hmem
  | cons hd tl ih =>
    intro hmem hcont huniq
    obtain ⟨cdn0, ranges0⟩ := hd
    rw [getCDNForIP_cons]
    split_ifs with hc
    · have hname : cdn0 = c := huniq (cdn0, ranges0) (List.mem_cons_self _ _) hc
      rw [hname]
    · rcases List.mem_cons.mp hmem with heq | hmem'
      · injection heq with h1 h2
        subst h1; subst h2
        exact absurd hcont hc
      · exact ih hmem' hcont
          (fun p hp hpc => huniq p (List.mem_cons_of_mem _ hp) hpc)

/-- When no entry contains the IP, the scan falls through to
("unknown", noCDN). -/
theorem getCDNForIP_unknown {ip : String} :
    ∀ {t : CDNIPMap}, (∀ p ∈ t, rangesContain ip p.2 = false) →
      getCDNForIP ip t = ("unknown", false) := by
  intro t
  induction t with
  | nil => intro _; rfl
  | cons hd tl ih =>
    intro hnone
    obtain ⟨cdn0, ranges0⟩ := hd
    rw [getCDNForIP_cons]
    split_ifs with hc
    · exact absurd hc
        (by simp [hnone (cdn0, ranges0) (List.mem_cons_self _ _)])
    · exact ih fun p hp => hnone p (List.mem_cons_of_mem _ hp)

/-! ## Claim C1 -/

/-- C1 counterexample: the claim demands that classifying an IP
strictly inside a range returns THAT range's CDN; with two CDNs
carrying the same range 10.0.0.0–10.0.0.255, the IP 10.0.0.42 is
strictly inside cdnB's range, yet the scan that visits cdnA first
returns cdnA. -/
theorem c1_counterexample :
    ("cdnB", [exRange]) ∈ overlapTableAB ∧ exRange ∈ [exRange] ∧
    parseIPv4 exRange.Start = some [10, 0, 0, 0] ∧
    parseIPv4 exRange.End = some [10, 0, 0, 255] ∧
    parseIPv4 "10.0.0.42" = some [10, 0, 0, 42] ∧
    ipToNat [10, 0, 0, 0] < ipToNat [10, 0, 0, 42] ∧
    ipToNat [10, 0, 0, 42] < ipToNat [10, 0, 0, 255] ∧
    getCDNForIP "10.0.0.42" overlapTableAB = ("cdnA", true) ∧
    getCDNForIP "10.0.0.42" overlapTableAB ≠ ("cdnB", true) := by
  decide

/-- C1 (amended): for parseable IPv4 start, end and candidate, an IP
strictly between a range's start and end yields a match — and the
returned CDN is that range's CDN whenever no other CDN's ranges also
contain the IP — while an IP one unit below start or one unit above
end does not satisfy that range's containment test. -/
theorem c1_inclusive_containment
    {t : CDNIPMap} {c : String} {ranges : List IPRange} {r : IPRange}
    {ip : String} {ib sb eb : List Nat}
    (hmem : (c, ranges) ∈ t) (hr : r ∈ ranges)
    (hsb : parseIPv4 r.Start = some sb)
    (heb : parseIPv4 r.End = some eb)
    (hib : parseIPv4 ip = some ib)
    (hlo : ipToNat sb < ipToNat ib) (hhi : ipToNat ib < ipToNat eb) :
    (getCDNForIP ip t).2 = true ∧
    ((∀ p ∈ t, rangesContain ip p.2 = true → p.1 = c) →
      getCDNForIP ip t = (c, true)) ∧
    (∀ {ipLo : String} {lb : List Nat}, parseIPv4 ipLo = some lb →
      ipToNat lb + 1 = ipToNat sb →
      isIPInRange ipLo r.Start r.End = false) ∧
    (∀ {ipHi : String} {hb : List Nat}, parseIPv4 ipHi = some hb →
      ipToNat hb = ipToNat eb + 1 →
      isIPInRange ipHi r.Start r.End = false) := by
  have hcontain : isIPInRange ip r.Start r.End = true :=
    (isIPInRange_iff hib hsb heb).mpr ⟨Nat.le_of_lt hlo, Nat.le_of_lt hhi⟩
  have hrc : rangesContain ip ranges = true :=
    List.any_eq_true.mpr ⟨r, hr, hcontain⟩
  refine ⟨?_, ?_, ?_, ?_⟩
  · exact getCDNForIP_found_of_contains ⟨(c, ranges), hmem, hrc⟩
  · intro huniq
    exact getCDNForIP_eq_of_unique hmem hrc huniq
  · intro ipLo lb hlb hone
    rcases Bool.eq_false_or_eq_true (isIPInRange ipLo r.Start r.End) with
      htrue | hfalse
    · have := (isIPInRange_iff hlb hsb heb).mp htrue
      omega
    · exact hfalse
  · intro ipHi hbs hhb hone
    rcases Bool.eq_false_or_eq_true (isIPInRange ipHi r.Start r.End) with
      htrue | hfalse
    · have := (isIPInRange_iff hhb hsb heb).mp htrue
      omega
    · exact hfalse

/-- C1 witness: scenario A's table, candidate 10.0.0.42 strictly
inside, and the boundary neighbours 9.255.255.255 and 10.0.1.0. -/
theorem c1_witness :
    (getCDNForIP "10.0.0.42" exTable).2 = true ∧
    getCDNForIP "10.0.0.42" exTable = ("ExampleCDN", true) ∧
    isIPInRange "9.255.255.255" exRange.Start exRange.End = false ∧
    isIPInRange "10.0.1.0" exRange.Start exRange.End = false := by
  have h := @c1_inclusive_containment exTable "ExampleCDN" [exRange] exRange
    "10.0.0.42" [10, 0, 0, 42] [10, 0, 0, 0] [10, 0, 0, 255]
    (by decide) (by decide) (by decide) (by decide) (by decide)
    (by decide) (by decide)
  exact ⟨h.1, h.2.1 (by decide),
    h.2.2.1
      (by decide : parseIPv4 "9.255.255.255" = some [9, 255, 255, 255])
      (by decide),
    h.2.2.2
      (by decide : parseIPv4 "10.0.1.0" = some [10, 0, 1, 0])
      (by decide)⟩

/-! ## Claim C8 -/

/-- C8 counterexample: overlapTableAB and overlapTableBA are the same
Go map value (a permutation with the same unique keys), seen under two
iteration orders — Go randomizes map iteration — and classification of
10.0.0.42, which both cdnA and cdnB contain, returns a different CDN
for each order.  The claim asserts identical results even when two
distinct CDNs contain the IP. -/
theorem c8_counterexample :
    overlapTableAB.Perm overlapTableBA ∧
    (overlapTableAB.map Prod.fst).Nodup ∧
    rangesContain "10.0.0.42" [exRange] = true ∧
    getCDNForIP "10.0.0.42" overlapTableAB = ("cdnA", true) ∧
    getCDNForIP "10.0.0.42" overlapTableBA = ("cdnB", true) ∧
    getCDNForIP "10.0.0.42" overlapTableAB
      ≠ getCDNForIP "10.0.0.42" overlapTableBA := by
  refine ⟨List.Perm.swap _ _ _, by decide, by decide, by decide, by decide,
    by decide⟩

/-- C8 (amended): classification is insensitive to the map iteration
order — so identical IP and identical table always yield the same
result — provided at most one CDN name's ranges contain the IP; when
ranges of two distinct CDNs both contain it, the result follows the
iteration order. -/
theorem c8_classify_deterministic {ip : String} {t1 t2 : CDNIPMap}
    (hperm : t1.Perm t2)
    (huniq : ∀ p ∈ t1, ∀ q ∈ t1, rangesContain ip p.2 = true →
      rangesContain ip q.2 = true → p.1 = q.1) :
    getCDNForIP ip t1 = getCDNForIP ip t2 := by
  induction hperm with
  | nil => rfl
  | cons x h ih =>
    obtain ⟨c0, r0⟩ := x
    rw [getCDNForIP_cons, getCDNForIP_cons]
    split_ifs with hc
    · rfl
    · exact ih fun p hp q hq hpc hqc =>
        huniq p (List.mem_cons_of_mem _ hp) q (List.mem_cons_of_mem _ hq)
          hpc hqc
  | swap x y l =>
    obtain ⟨cx, rx⟩ := x
    obtain ⟨cy, ry⟩ := y
    rw [getCDNForIP_cons, getCDNForIP_cons, getCDNForIP_cons,
      getCDNForIP_cons]
    by_cases hx : rangesContain ip rx = true <;>
      by_cases hy : rangesContain ip ry = true
    · have hcc : cy = cx := huniq (cy, ry) (List.mem_cons_self _ _)
        (cx, rx) (List.mem_cons_of_mem _ (List.mem_cons_self _ _)) hy hx
      simp [hx, hy, hcc]
    · simp [hx, hy]
    · simp [hx, hy]
    · simp [hx, hy]
  | trans h1 h2 ih1 ih2 =>
    refine (ih1 huniq).trans (ih2 ?_)
    intro p hp q hq hpc hqc
    exact huniq p (h1.mem_iff.mpr hp) q (h1.mem_iff.mpr hq) hpc hqc

/-- C8 witness: two iteration orders of a table whose CDNs have
disjoint ranges classify 10.0.0.42 identically. -/
theorem c8_witness :
    disjointTableAB.Perm disjointTableBA ∧
    (∀ p ∈ disjointTableAB, ∀ q ∈ disjointTableAB,
      rangesContain "10.0.0.42" p.2 = true →
      rangesContain "10.0.0.42" q.2 = true → p.1 = q.1) ∧
    getCDNForIP "10.0.0.42" disjointTableAB
      = getCDNForIP "10.0.0.42" disjointTableBA :=
  ⟨List.Perm.swap _ _ _, by decide,
    c8_classify_deterministic (List.Perm.swap _ _ _) (by decide)⟩

/-! ## Claim C3 -/

/-- C3: an IP contained in no range of any CDN classifies to
("unknown", found = false); for such a result the aggregation loop
writes no output row, logs a "no cdn" warning (not a processing
error), increments the processed counter, and carries on folding the
remaining results. -/
theorem c3_no_cdn_nonfatal {t : CDNIPMap} {ip : String}
    (hnone : ∀ p ∈ t, rangesContain ip p.2 = false) :
    getCDNForIP ip t = ("unknown", false) ∧
    ∀ (servers : List String) (oracle : String → String → DNSOutcome)
      (domain : String) (ips : List String) (dur : Nat)
      (s : AggState) (rest : List RResult),
      (lookupIPWithRetry servers (oracle domain)).1 = .ok ips →
      ips ≠ [] → ips.headD "" = ip →
      processDomain servers oracle t domain = .error .noCDN ∧
      aggregate s (workerProcess servers oracle t dur domain :: rest)
        = aggregate (aggregateStep s
            (workerProcess servers oracle t dur domain)) rest ∧
      (aggregateStep s (workerProcess servers oracle t dur domain)).rows
        = s.rows ∧
      (aggregateStep s (workerProcess servers oracle t dur domain)).logs
        = s.logs ++ [.warnNoCDN domain] ∧
      (aggregateStep s
          (workerProcess servers oracle t dur domain)).processedCount
        = s.processedCount + 1 := by
  have hunknown : getCDNForIP ip t = ("unknown", false) :=
    getCDNForIP_unknown hnone
  refine ⟨hunknown, ?_⟩
  intro servers oracle domain ips dur s rest hlk hne hhead
  have hlen : ¬ ips.length = 0 := by
    simpa [List.length_eq_zero] using hne
  have hproc : processDomain servers oracle t domain = .error .noCDN := by
    unfold processDomain
    rw [hlk]
    simp only [hlen, if_false]
    rw [hhead, hunknown]
  have hworker : workerProcess servers oracle t dur domain
      = ⟨⟨"", "", ""⟩, some .noCDN, domain, dur⟩ := by
    unfold workerProcess
    rw [hproc]
  refine ⟨hproc, rfl, ?_, ?_, ?_⟩ <;> rw [hworker] <;> rfl

/-- C3 witness: spec scenario B — the table of scenario A and a domain
resolving to 10.0.1.1. -/
theorem c3_witness :
    getCDNForIP "10.0.1.1" exTable = ("unknown", false) ∧
    processDomain publicDNSServers oracleUnknown exTable "domainB"
      = .error .noCDN ∧
    (aggregateStep initAgg
        (workerProcess publicDNSServers oracleUnknown exTable 5
          "domainB")).rows = [] ∧
    (aggregateStep initAgg
        (workerProcess publicDNSServers oracleUnknown exTable 5
          "domainB")).logs = [.warnNoCDN "domainB"] ∧
    (aggregateStep initAgg
        (workerProcess publicDNSServers oracleUnknown exTable 5
          "domainB")).processedCount = 1 := by
  have h := @c3_no_cdn_nonfatal exTable "10.0.1.1" (by decide)
  have h2 := h.2 publicDNSServers oracleUnknown "domainB" ["10.0.1.1"] 5
    initAgg [] rfl (by decide) rfl
  exact ⟨h.1, h2.1, h2.2.2.1, h2.2.2.2.1, h2.2.2.2.2⟩

/-! ## Claim C5 -/

theorem lookupLoop_count_le :
    ∀ (attempts : List DNSOutcome) (le : Option String),
      (lookupLoop attempts le).2 ≤ attempts.length := by
  intro attempts
  induction attempts with
  | nil => intro le; simp [lookupLoop]
  | cons a rest ih =>
    intro le
    match a with
    | .fail e =>
      simpa [lookupLoop] using Nat.succ_le_succ (ih (some e))
    | .ok ips =>
      by_cases hemp : ips.isEmpty
      · simpa [lookupLoop, hemp] using Nat.succ_le_succ (ih le)
      · simp [lookupLoop, hemp]

theorem lookupLoop_all_fail :
    ∀ (attempts : List DNSOutcome) (le : Option String),
      (∀ a ∈ attempts, attemptQualifies a = false) →
      lookupLoop attempts le
        = (.error (lastErrFrom le attempts), attempts.length) := by
  intro attempts
  induction attempts with
  | nil => intro le _; rfl
  | cons a rest ih =>
    intro le hall
    match a with
    | .fail e =>
      have := ih (some e) fun x hx => hall x (List.mem_cons_of_mem _ hx)
      simp [lookupLoop, this, lastErrFrom, List.foldl_cons]
    | .ok ips =>
      have hq : attemptQualifies (.ok ips) = false :=
        hall _ (List.mem_cons_self _ _)
      have hemp : ips.isEmpty = true := by
        simpa [attemptQualifies] using hq
      have := ih le fun x hx => hall x (List.mem_cons_of_mem _ hx)
      simp [lookupLoop, hemp, this, lastErrFrom, List.foldl_cons]

theorem lookupLoop_first_qualifying :
    ∀ (attempts : List DNSOutcome) (le : Option String) (i : Nat)
      (hi : i < attempts.length) (ips : List String),
      attempts.get ⟨i, hi⟩ = .ok ips → ips ≠ [] →
      (∀ (j : Nat) (hj : j < attempts.length), j < i →
        attemptQualifies (attempts.get ⟨j, hj⟩) = false) →
      lookupLoop attempts le = (.ok ips, i + 1) := by
  intro attempts
  induction attempts with
  | nil => intro le i hi; cases hi
  | cons a rest ih =>
    intro le i hi ips hget hne hbefore
    match i with
    | 0 =>
      simp only [List.get] at hget
      subst hget
      have hemp : ips.isEmpty = false := by
        simpa [List.isEmpty_iff] using hne
      simp [lookupLoop, hemp]
    | i' + 1 =>
      have hhead : attemptQualifies a = false := by
        have := hbefore 0 (Nat.succ_le_succ (Nat.zero_le _))
          (Nat.succ_pos _)
        simpa using this
      have hrec := ih le i' (Nat.lt_of_succ_lt_succ hi) ips
        (by simpa using hget) hne
        (fun j hj hlt => by
          have := hbefore (j + 1) (Nat.succ_le_succ hj)
            (Nat.succ_lt_succ hlt)
          simpa using this)
      match a with
      | .fail e =>
        have hrec' := ih (some e) i' (Nat.lt_of_succ_lt_succ hi) ips
          (by simpa using hget) hne
          (fun j hj hlt => by
            have := hbefore (j + 1) (Nat.succ_le_succ hj)
              (Nat.succ_lt_succ hlt)
            simpa using this)
        simp [lookupLoop, hrec']
      | .ok l =>
        have hemp : l.isEmpty = true := by
          simpa [attemptQualifies] using hhead
        simp [lookupLoop, hemp, hrec]

/-- C5: over any shuffled order of the configured resolvers, the retry
loop attempts each resolver at most once — so at most
len(publicDNSServers) attempts in total; the first attempt that
returns at least one address ends the loop, which returns that
attempt's addresses (processDomain then takes the first); and when no
attempt qualifies, the loop fails carrying the last observed error. -/
theorem c5_retry_terminates (servers : List String)
    (oracle : String → DNSOutcome)
    (hperm : servers.Perm publicDNSServers) :
    (lookupIPWithRetry servers oracle).2 ≤ publicDNSServers.length ∧
    (∀ (i : Nat) (hi : i < (servers.map oracle).length)
        (ips : List String),
      (servers.map oracle).get ⟨i, hi⟩ = .ok ips → ips ≠ [] →
      (∀ (j : Nat) (hj : j < (servers.map oracle).length), j < i →
        attemptQualifies ((servers.map oracle).get ⟨j, hj⟩) = false) →
      lookupIPWithRetry servers oracle = (.ok ips, i + 1)) ∧
    ((∀ a ∈ servers.map oracle, attemptQualifies a = false) →
      lookupIPWithRetry servers oracle
        = (.error (lastErrOf (servers.map oracle)),
           publicDNSServers.length)) := by
  have hlen : (servers.map oracle).length = publicDNSServers.length := by
    rw [List.length_map]
    exact hperm.length_eq
  refine ⟨?_, ?_, ?_⟩
  · calc (lookupIPWithRetry servers oracle).2
        ≤ (servers.map oracle).length :=
          lookupLoop_count_le (servers.map oracle) none
      _ = publicDNSServers.length := hlen
  · intro i hi ips hget hne hbefore
    exact lookupLoop_first_qualifying (servers.map oracle) none i hi ips
      hget hne hbefore
  · intro hall
    rw [← hlen]
    exact lookupLoop_all_fail (servers.map oracle) none hall

/-- C5 witness: the unshuffled server order, with only the first
server answering. -/
theorem c5_witness :
    (lookupIPWithRetry publicDNSServers oracleFirstOnly).2
        ≤ publicDNSServers.length ∧
    lookupIPWithRetry publicDNSServers oracleFirstOnly
      = (.ok ["1.2.3.4"], 1) := by
  have h := c5_retry_terminates publicDNSServers oracleFirstOnly
    (List.Perm.refl _)
  refine ⟨h.1, ?_⟩
  exact h.2.1 0 (by decide) ["1.2.3.4"] (by decide) (by decide)
    (fun j hj hlt => absurd hlt (Nat.not_lt_zero _))

/-! ## Claim C10 -/

theorem lookupLoop_ok_nonempty :
    ∀ (attempts : List DNSOutcome) (le : Option String)
      (ips : List String),
      (lookupLoop attempts le).1 = .ok ips → ips ≠ [] := by
  intro attempts
  induction attempts with
  | nil => intro le ips h; cases h
  | cons a rest ih =>
    intro le ips h
    match a with
    | .fail e =>
      exact ih (some e) ips (by simpa [lookupLoop] using h)
    | .ok l =>
      by_cases hemp : l.isEmpty
      · exact ih le ips (by simpa [lookupLoop, hemp] using h)
      · simp only [lookupLoop, hemp, if_false] at h
        injection h with h
        subst h
        simpa [List.isEmpty_iff] using hemp

/-- C10: lookupIPWithRetry succeeds only with a nonempty address list,
so processDomain's "no IP addresses found" branch can never be
taken. -/
theorem c10_no_ips_unreachable (servers : List String)
    (oracle : String → String → DNSOutcome) (table : CDNIPMap)
    (domain : String) :
    (∀ ips, (lookupIPWithRetry servers (oracle domain)).1 = .ok ips →
      ips ≠ []) ∧
    processDomain servers oracle table domain ≠ .error .noIPs := by
  refine ⟨fun ips h => lookupLoop_ok_nonempty _ none ips h, ?_⟩
  unfold processDomain
  cases hlk : (lookupIPWithRetry servers (oracle domain)).1 with
  | error le => simp
  | ok ips =>
    have hne : ips ≠ [] := lookupLoop_ok_nonempty _ none ips hlk
    have hlen : ¬ ips.length = 0 := by
      simpa [List.length_eq_zero] using hne
    simp only [hlen, if_false]
    cases hcdn : getCDNForIP (ips.headD "") table with
    | mk c found =>
      cases found <;> simp

/-- C10 witness at a concrete oracle where the lookup succeeds. -/
theorem c10_witness :
    (["10.0.0.42"] : List String) ≠ [] ∧
    processDomain publicDNSServers oracleAlways42 exTable "example.com"
      ≠ .error .noIPs :=
  ⟨(c10_no_ips_unreachable publicDNSServers oracleAlways42 exTable
      "example.com").1 ["10.0.0.42"] rfl,
   (c10_no_ips_unreachable publicDNSServers oracleAlways42 exTable
      "example.com").2⟩

/-! ## Claim C4 -/

theorem keysOf_mapAppend (m : List (String × List IPRange)) (k : String)
    (v : List IPRange) :
    keysOf (mapAppend m k v)
      = if k ∈ keysOf m then keysOf m else keysOf m ++ [k] := by
  induction m with
  | nil => simp [mapAppend, keysOf]
  | cons hd rest ih =>
    obtain ⟨k0, v0⟩ := hd
    simp only [keysOf] at ih ⊢
    by_cases hk : k0 = k
    · subst hk
      simp [mapAppend]
    · have hk' : ¬ k = k0 := fun h => hk h.symm
      simp only [mapAppend, hk, if_false, List.map_cons]
      rw [ih]
      by_cases hm : k ∈ List.map Prod.fst rest
      · simp [List.mem_cons, hk', hm]
      · simp [List.mem_cons, hk', hm]

theorem mem_keysOf_mapAppend {k' : String}
    (m : List (String × List IPRange)) (k : String) (v : List IPRange) :
    k' ∈ keysOf (mapAppend m k v) ↔ k' ∈ keysOf m ∨ k' = k := by
  rw [keysOf_mapAppend]
  split_ifs with hm
  · constructor
    · exact Or.inl
    · rintro (h | rfl)
      · exact h
      · exact hm
  · simp [List.mem_append]

theorem mem_keysOf_foldAsns (entries : List ASNEntry) (cdn k : String) :
    ∀ (asns : List String) (m : List (String × List IPRange)),
      k ∈ keysOf (asns.foldl
          (fun m asn =>
            match getIPRangesForASNTSV entries asn with
            | .error _ => m
            | .ok ipRanges => mapAppend m cdn ipRanges) m)
        ↔ k ∈ keysOf m ∨
            (cdn = k ∧ ∃ asn ∈ asns, fetchOk entries asn = true) := by
  intro asns
  induction asns with
  | nil => simp
  | cons a rest ih =>
    intro m
    simp only [List.foldl_cons]
    cases hf : getIPRangesForASNTSV entries a with
    | error e =>
      have hfo : fetchOk entries a = false := by simp [fetchOk, hf]
      simp only [hf]
      rw [ih]
      simp only [List.mem_cons]
      constructor
      · rintro (h | ⟨hc, asn, hmem, hok⟩)
        · exact Or.inl h
        · exact Or.inr ⟨hc, asn, Or.inr hmem, hok⟩
      · rintro (h | ⟨hc, asn, (rfl | hmem), hok⟩)
        · exact Or.inl h
        · rw [hfo] at hok; cases hok
        · exact Or.inr ⟨hc, asn, hmem, hok⟩
    | ok rs =>
      have hfo : fetchOk entries a = true := by simp [fetchOk, hf]
      simp only [hf]
      rw [ih, mem_keysOf_mapAppend]
      simp only [List.mem_cons]
      constructor
      · rintro ((h | rfl) | ⟨hc, asn, hmem, hok⟩)
        · exact Or.inl h
        · exact Or.inr ⟨rfl, a, Or.inl rfl, hfo⟩
        · exact Or.inr ⟨hc, asn, Or.inr hmem, hok⟩
      · rintro (h | ⟨rfl, asn, hmem, hok⟩)
        · exact Or.inl (Or.inl h)
        · exact Or.inl (Or.inr rfl)

theorem mem_keysOf_build (entries : List ASNEntry) (k : String) :
    ∀ (records : List (List String)) (m : List (String × List IPRange)),
      k ∈ keysOf (records.foldl (buildRow entries) m) ↔
        k ∈ keysOf m ∨
          ∃ rec ∈ records, (parseRecord rec).1 = k ∧
            ∃ asn ∈ (parseRecord rec).2, fetchOk entries asn = true := by
  intro records
  induction records with
  | nil => simp
  | cons rec rest ih =>
    intro m
    simp only [List.foldl_cons]
    rw [ih]
    have hrow : k ∈ keysOf (buildRow entries m rec) ↔
        k ∈ keysOf m ∨
          ((parseRecord rec).1 = k ∧
            ∃ asn ∈ (parseRecord rec).2, fetchOk entries asn = true) := by
      rcases hpr : parseRecord rec with ⟨c, asns⟩
      simp only [buildRow, hpr]
      rw [mem_keysOf_foldAsns]
    rw [hrow]
    simp only [List.mem_cons]
    constructor
    · rintro ((h | hrec) | ⟨r, hmem, hk⟩)
      · exact Or.inl h
      · exact Or.inr ⟨rec, Or.inl rfl, hrec⟩
      · exact Or.inr ⟨r, Or.inr hmem, hk⟩
    · rintro (h | ⟨r, (rfl | hmem), hk⟩)
      · exact Or.inl (Or.inl h)
      · exact Or.inl (Or.inr hk)
      · exact Or.inr ⟨r, hmem, hk⟩

/-- C4 counterexample: a valid CDN/ASN row whose only ASN has no entry
in the range source yields a table with NO key for that CDN — the key
set is not the set of distinct CDN names of the input. -/
theorem c4_counterexample :
    (parseRecord ["X", "AS999"]).1 = "X" ∧
    (parseRecord ["X", "AS999"]).2 = ["AS999"] ∧
    buildCDNIPMap [exEntry] [["X", "AS999"]] = [] ∧
    keysOf (buildCDNIPMap [exEntry] [["X", "AS999"]]) = [] := by
  decide

/-- C4 (amended): the key set of the built table equals the set of
distinct CDN names that have at least one ASN for which the range
source yields at least one range (a CDN all of whose ASNs fail is
skipped, per the per-ASN skip-and-log recovery); rebuilding from the
same input and range source yields the same table. -/
theorem c4_build_keys (entries : List ASNEntry)
    (records : List (List String)) :
    (∀ k, k ∈ keysOf (buildCDNIPMap entries records) ↔
      ∃ rec ∈ records, (parseRecord rec).1 = k ∧
        ∃ asn ∈ (parseRecord rec).2, fetchOk entries asn = true) ∧
    buildCDNIPMap entries records = buildCDNIPMap entries records := by
  refine ⟨?_, rfl⟩
  intro k
  unfold buildCDNIPMap
  rw [mem_keysOf_build]
  simp [keysOf]

/-- C4 witness at a one-row input whose ASN is present in the bulk
table. -/
theorem c4_witness :
    "Cloudflare" ∈
      keysOf (buildCDNIPMap [exEntry] [["Cloudflare", "AS13335"]]) ∧
    buildCDNIPMap [exEntry] [["Cloudflare", "AS13335"]]
      = [("Cloudflare", [⟨"1.0.0.0", "1.0.0.255"⟩])] := by
  refine ⟨?_, by decide⟩
  exact ((c4_build_keys [exEntry] [["Cloudflare", "AS13335"]]).1
      "Cloudflare").mpr
    ⟨["Cloudflare", "AS13335"], by decide, by decide, "AS13335",
      by decide, by decide⟩

/-! ## Claim C2 -/

/-- C2: at the failing input — one well-formed row whose domain
resolves successfully — the producer makes exactly one job, the worker
emits exactly one result, that result is written as one output row,
yet processedCount remains 0: the loop increments it only inside the
error branch, contradicting the claim (and the code's own comment
"Update progress tracking no matter the result"). -/
theorem c2_processed_count_not_updated :
    (parseJobs inputLinesC2).length = 1 ∧
    ((parseJobs inputLinesC2).map
        (workerProcess publicDNSServers oracleAlways42 exTable 7)).length
      = 1 ∧
    (aggregate initAgg ((parseJobs inputLinesC2).map
        (workerProcess publicDNSServers oracleAlways42 exTable
          7))).rows.length = 1 ∧
    (aggregate initAgg ((parseJobs inputLinesC2).map
        (workerProcess publicDNSServers oracleAlways42 exTable
          7))).processedCount = 0 := by
  decide

/-! ## Claim C9 -/

/-- C9 counterexample: a run of 11 successful results leaves 11
durations in processingTimes — more than the "last 10 durations" the
spec's bounded rolling window describes. -/
theorem c9_counterexample :
    (aggregate initAgg
        (List.replicate 11 succResult)).processingTimes.length = 11 ∧
    10 < (aggregate initAgg
        (List.replicate 11 succResult)).processingTimes.length := by
  decide

/-- C9 (amended): processingTimes is appended to on every successful
result and never truncated: its length is the initial length plus the
number of successes among the processed results — unbounded in the
number of domains. -/
theorem c9_processing_times_unbounded (s : AggState)
    (results : List RResult) :
    (aggregate s results).processingTimes.length
      = s.processingTimes.length
        + results.countP (fun r => r.err.isNone) := by
  induction results generalizing s with
  | nil => simp [aggregate]
  | cons r rest ih =>
    have hcons : aggregate s (r :: rest)
        = aggregate (aggregateStep s r) rest := rfl
    rw [hcons, ih]
    rcases hr : r.err with _ | e <;>
      simp [aggregateStep, hr, List.countP_cons] <;> omega

/-! ## Claim C6 -/

/-- C6 counterexample: an API-variant builder invocation with the
output file already present and no overwrite opt-in does not abort: it
runs to the output write (after its network fetches). -/
theorem c6_counterexample :
    (apiBuilderMain true [["cdn1", "AS13335"]]).2 = none ∧
    BEvent.writeOutput ∈ (apiBuilderMain true [["cdn1", "AS13335"]]).1 := by
  decide

/-- C6 (amended): the TSV-variant builder checks the output path
first: when it exists, the run aborts fatally with an empty event
trace — before any network access and without writing; the API
variant performs no such check and never aborts for an existing
output. -/
theorem c6_tsv_overwrite_guard (tsvCached : Bool)
    (entries : List ASNEntry) (records : List (List String)) :
    tsvBuilderMain true tsvCached entries records
      = ([], some overwriteFatalMsg) ∧
    (apiBuilderMain true records).2 = none :=
  ⟨rfl, rfl⟩

/-! ## Claim C7 -/

/-- C7: every netblock of the form address/prefixLength produces a
range whose start AND end are both the address part, and every range
the API-variant conversion produces has start = end — never an end
computed from the prefix length. -/
theorem c7_naive_cidr (netblocks : List String) (nb : String)
    (addr plen : List Char) (hmem : nb ∈ netblocks)
    (hsplit : splitOnChar '/' nb.toList = [addr, plen]) :
    IPRange.mk addr.asString addr.asString ∈ netblocksToRanges netblocks ∧
    ∀ r ∈ netblocksToRanges netblocks, r.Start = r.End := by
  constructor
  · apply List.mem_filterMap.mpr
    refine ⟨nb, hmem, ?_⟩
    unfold netblockToRange
    split
    · next a l heq =>
      have h2 : ([addr, plen] : List (List Char)) = [a, l] :=
        hsplit.symm.trans heq
      injection h2 with h2 h3
      subst h2
      rfl
    · next hne => exact (hne addr plen hsplit).elim
  · intro r hr
    rcases List.mem_filterMap.mp hr with ⟨nb', hnb', hf⟩
    unfold netblockToRange at hf
    split at hf
    · injection hf with hf
      subst hf
      rfl
    · cases hf

/-- C7 witness at the prefix 10.0.0.0/8: the end is the network
address 10.0.0.0, not the broadcast address 10.255.255.255. -/
theorem c7_witness :
    IPRange.mk "10.0.0.0" "10.0.0.0" ∈ netblocksToRanges ["10.0.0.0/8"] ∧
    ∀ r ∈ netblocksToRanges ["10.0.0.0/8"], r.Start = r.End := by
  have h := c7_naive_cidr ["10.0.0.0/8"] "10.0.0.0/8"
    "10.0.0.0".toList "8".toList (by decide) (by decide)
  exact ⟨h.1, h.2⟩

end DomainFronting
